import Mathlib

/-!
Verification of the pbx-microservice call-lifecycle engine.

Shallow embedding of the Python sources:
* `app/services/state_machine.py`  — `CallStatus` transitions,
* `app/services/call_service.py`   — packet ingestion and status updates,
* `app/services/retry_strategy.py` — bounded exponential-backoff retry,
* `app/services/call_processor.py` — the background enrichment processor,
* `app/api/routes/calls.py`        — the completion endpoint and history query.

Conventions of the embedding:
* timestamps (`datetime.utcnow()`) are an abstract tick passed in as `now : Nat`;
* the comma-separated `missing_packets` column is modelled as the list of
  numbers the stored string denotes (the code always writes the ascending,
  duplicate-free rendering of a Python `set`);
* packet sequence numbers are `Nat`, matching the `ge=0` validation of
  `PacketMetadata` at the API boundary;
* client timestamps (Python floats) are modelled as rationals — no claim
  depends on float rounding;
* database commits are modelled by returning the updated record: the Python
  functions either raise before mutating anything or commit all listed field
  assignments.
-/

/-- Call status enum from `app/db/models.py` (`CallStatus`). -/
inductive CallStatus : Type
  | IN_PROGRESS
  | COMPLETED
  | PROCESSING_AI
  | FAILED
  | ARCHIVED
deriving DecidableEq, Repr, Fintype

/-- Error raised on an invalid state transition (`StateTransitionError` in
`app/services/state_machine.py`); its message names both states, so the
embedding carries both. -/
structure StateTransitionError : Type where
  from_status : CallStatus
  to_status : CallStatus
deriving DecidableEq, Repr

namespace CallStateMachine

/-- Transition table `CallStateMachine.VALID_TRANSITIONS` from
`app/services/state_machine.py`. -/
def VALID_TRANSITIONS : CallStatus → List CallStatus
  | .IN_PROGRESS => [.COMPLETED, .FAILED]
  | .COMPLETED => [.PROCESSING_AI, .ARCHIVED]
  | .PROCESSING_AI => [.COMPLETED, .FAILED, .ARCHIVED]
  | .FAILED => [.ARCHIVED]
  | .ARCHIVED => []

/-- `CallStateMachine.can_transition`. -/
def can_transition (from_status to_status : CallStatus) : Bool :=
  decide (to_status ∈ VALID_TRANSITIONS from_status)

/-- `CallStateMachine.transition`: same-state succeeds idempotently, a listed
edge succeeds, anything else raises `StateTransitionError`. -/
def transition (from_status to_status : CallStatus) :
    Except StateTransitionError CallStatus :=
  if from_status = to_status then .ok to_status
  else if can_transition from_status to_status then .ok to_status
  else .error ⟨from_status, to_status⟩

end CallStateMachine

/-- One ingested packet (`CallPacket` in `app/db/models.py`); the
database-generated surrogate `id` is omitted. -/
structure CallPacket : Type where
  call_id : String
  sequence : Nat
  data : String
  timestamp : Rat
  received_at : Nat
deriving DecidableEq, Repr

/-- One call row (`Call` in `app/db/models.py`); the surrogate `id` is kept so
frame properties can speak about every column. -/
structure CallState : Type where
  id : Nat
  call_id : String
  status : CallStatus
  created_at : Nat
  updated_at : Nat
  completed_at : Option Nat
  expected_sequence : Nat
  total_packets : Nat
  missing_packets : List Nat
  transcription : Option String
  sentiment : Option String
  ai_processing_attempts : Nat
  ai_processed_at : Option Nat
  error_message : Option String
  packets : List CallPacket
deriving DecidableEq, Repr

/-- Insert a number into an ascending duplicate-free list, keeping it
ascending and duplicate-free; building block for the `sorted(set(...))`
pipeline of `CallService.add_packet`. -/
def insertSortedNoDup (x : Nat) : List Nat → List Nat
  | [] => [x]
  | y :: ys =>
    if x < y then x :: y :: ys
    else if x = y then y :: ys
    else y :: insertSortedNoDup x ys

/-- Model of Python `sorted(set(l))`: the ascending duplicate-free list with
the same membership as `l`. -/
def sortedDedup (l : List Nat) : List Nat :=
  l.foldl (fun acc x => insertSortedNoDup x acc) []

/-- Model of the missing-set update in `CallService.add_packet`: parse the
stored list, union with the new gap, store the sorted rendering. -/
def mergeMissing (cur gap : List Nat) : List Nat :=
  sortedDedup (cur ++ gap)

namespace CallService

/-- `CallService.add_packet` from `app/services/call_service.py`: detect the
gap / duplicate case, extend the missing list on a gap, append the packet,
bump `total_packets`, advance the cursor when `sequence >= expected_sequence`,
refresh `updated_at`.  Returns the committed call row together with the
stored packet and the `is_in_order` flag. -/
def add_packet (now : Nat) (call : CallState) (sequence : Nat) (data : String)
    (timestamp : Rat) : CallState × CallPacket × Bool :=
  let is_in_order := decide (sequence = call.expected_sequence)
  let call :=
    if call.expected_sequence < sequence then
      { call with
        missing_packets :=
          mergeMissing call.missing_packets
            (List.range' call.expected_sequence (sequence - call.expected_sequence)) }
    else call
  let packet : CallPacket :=
    { call_id := call.call_id, sequence := sequence, data := data,
      timestamp := timestamp, received_at := now }
  let call :=
    { call with
      packets := call.packets ++ [packet],
      total_packets := call.total_packets + 1,
      expected_sequence :=
        if call.expected_sequence ≤ sequence then sequence + 1
        else call.expected_sequence,
      updated_at := now }
  (call, packet, is_in_order)

/-- `CallService.update_call_status`: validate through the state machine
(raising before any field is touched), then set the status, refresh
`updated_at`, set `completed_at` when entering `COMPLETED`, and set
`error_message` when entering `FAILED` with a truthy (non-empty) message. -/
def update_call_status (now : Nat) (call : CallState) (new_status : CallStatus)
    (error_message : Option String) : Except StateTransitionError CallState :=
  match CallStateMachine.transition call.status new_status with
  | .error e => .error e
  | .ok _ =>
    let call := { call with status := new_status, updated_at := now }
    let call :=
      if new_status = CallStatus.COMPLETED then
        { call with completed_at := some now }
      else call
    let call :=
      match error_message with
      | some m =>
        if new_status = CallStatus.FAILED ∧ m ≠ "" then
          { call with error_message := some m }
        else call
      | none => call
    .ok call

end CallService

deriving instance DecidableEq for Except

/-- Relevant retry settings from `app/config.py` (`Settings`). -/
structure Settings : Type where
  MAX_RETRY_ATTEMPTS : Nat
  RETRY_INITIAL_WAIT : Nat
  RETRY_MAX_WAIT : Nat
deriving DecidableEq, Repr

/-- Configured values: `MAX_RETRY_ATTEMPTS = 5`, `RETRY_INITIAL_WAIT = 1`,
`RETRY_MAX_WAIT = 60`. -/
def settings : Settings :=
  { MAX_RETRY_ATTEMPTS := 5, RETRY_INITIAL_WAIT := 1, RETRY_MAX_WAIT := 60 }

/-- Failure modes of an enrichment attempt: `AIServiceError` (the retryable
exception raised by `app/services/ai_service.py`) versus any other exception,
which `retry_if_exception_type(AIServiceError)` does not retry. -/
inductive AIFailure : Type
  | AIServiceError (msg : String)
  | unexpected (msg : String)
deriving DecidableEq, Repr

/-- Wait computed by tenacity's `wait_exponential(multiplier, max)` after the
failed attempt numbered `attempt_number`; the exponent base defaults to 2.
Modelled from the library's documented behavior:
`min(multiplier * exp_base ** (attempt_number - 1), max)` clamped below at 0
(vacuous over `Nat`). -/
def wait_exponential (multiplier maxWait exp_base attempt_number : Nat) : Nat :=
  min (multiplier * exp_base ^ (attempt_number - 1)) maxWait

/-- Retry loop of a tenacity `retry(stop=stop_after_attempt(max), wait=...,
retry=retry_if_exception_type(AIServiceError))` decorator.  `op k` is the
outcome of attempt number `k`; `remaining` counts the attempts still allowed
after the current one.  Returns the final outcome, the number of the last
attempt made, and the list of backoff waits applied (in order). -/
def runRetry (op : Nat → Except AIFailure α) (waitFn : Nat → Nat) :
    Nat → Nat → Except AIFailure α × Nat × List Nat
  | k, 0 =>
    match op k with
    | .ok a => (.ok a, k, [])
    | .error e => (.error e, k, [])
  | k, remaining + 1 =>
    match op k with
    | .ok a => (.ok a, k, [])
    | .error (.unexpected m) => (.error (.unexpected m), k, [])
    | .error (.AIServiceError _) =>
      let rest := runRetry op waitFn (k + 1) remaining
      (rest.1, rest.2.1, waitFn k :: rest.2.2)

/-- `retry_with_backoff` from `app/services/retry_strategy.py`
(`create_retry_decorator()`), applied to an operation: up to
`MAX_RETRY_ATTEMPTS` attempts, exponential backoff
`wait_exponential(multiplier=RETRY_INITIAL_WAIT, max=RETRY_MAX_WAIT)`, and
retries only on `AIServiceError`. -/
def retry_with_backoff (op : Nat → Except AIFailure α) :
    Except AIFailure α × Nat × List Nat :=
  runRetry op
    (wait_exponential settings.RETRY_INITIAL_WAIT settings.RETRY_MAX_WAIT 2)
    1 (settings.MAX_RETRY_ATTEMPTS - 1)

/-- Stable ascending sort by packet sequence, the `sorted(call.packets,
key=lambda p: p.sequence)` step of `CallProcessor._combine_packet_data`
(Python `sorted` is stable). -/
def sortBySequence (packets : List CallPacket) : List CallPacket :=
  List.insertionSort (fun p q => p.sequence ≤ q.sequence) packets

namespace CallProcessor

/-- `CallProcessor._combine_packet_data`: empty packet list yields `""`,
otherwise the packets' `data` fields joined with `" "` in ascending sequence
order. -/
def _combine_packet_data (packets : List CallPacket) : String :=
  if packets = [] then ""
  else String.intercalate " " ((sortBySequence packets).map CallPacket.data)

/-- `CallProcessor._process_single_call`: claim the call (transition to
`PROCESSING_AI`), combine its packets, run the enrichment under
`retry_with_backoff`, then reconcile.  `ai audio k` is the outcome the AI
service would produce on attempt `k` for the combined payload `audio`.  The
two `except` branches of the Python function both re-read the row, increment
`ai_processing_attempts`, commit, then best-effort transition to `FAILED`
(itself swallowing a second `StateTransitionError`).  Every commit that
updates the row also refreshes `updated_at`: the column is declared with
`onupdate=datetime.utcnow` in `app/db/models.py`, so the ORM rewrites it on
each UPDATE, including the bare attempts-increment commits. -/
def _process_single_call (now : Nat)
    (ai : String → Nat → Except AIFailure (String × String))
    (call : CallState) : CallState :=
  match CallService.update_call_status now call CallStatus.PROCESSING_AI none with
  | .error _ =>
    let c := { call with
               ai_processing_attempts := call.ai_processing_attempts + 1,
               updated_at := now }
    match CallService.update_call_status now c CallStatus.FAILED
        (some "Unexpected error: Invalid state transition") with
    | .ok c2 => c2
    | .error _ => c
  | .ok claimed =>
    let audio_data := _combine_packet_data claimed.packets
    match retry_with_backoff (ai audio_data) with
    | (.ok (transcription, sentiment), _, _) =>
      let c :=
        { claimed with
          transcription := some transcription,
          sentiment := some sentiment,
          ai_processed_at := some now,
          ai_processing_attempts := claimed.ai_processing_attempts + 1,
          updated_at := now }
      match CallService.update_call_status now c CallStatus.COMPLETED none with
      | .ok c2 => c2
      | .error _ =>
        let c3 := { c with
                    ai_processing_attempts := c.ai_processing_attempts + 1,
                    updated_at := now }
        match CallService.update_call_status now c3 CallStatus.FAILED
            (some "Unexpected error: Invalid state transition") with
        | .ok c4 => c4
        | .error _ => c3
    | (.error e, _, _) =>
      let msg :=
        match e with
        | .AIServiceError m => "AI service failed after retries: " ++ m
        | .unexpected m => "Unexpected error: " ++ m
      let c := { claimed with
                 ai_processing_attempts := claimed.ai_processing_attempts + 1,
                 updated_at := now }
      match CallService.update_call_status now c CallStatus.FAILED (some msg) with
      | .ok c2 => c2
      | .error _ => c

/-- One pass of `CallProcessor._process_pending_calls` over the eligible rows
it fetched: each call is handed to `_process_single_call` exactly once, and a
failure on one call never stops the loop (the per-call `except` swallows it). -/
def _process_pending_calls (now : Nat)
    (ai : String → Nat → Except AIFailure (String × String))
    (calls : List CallState) : List CallState :=
  calls.map (_process_single_call now ai)

end CallProcessor

/-- Outcome of the `POST /v1/call/complete/{call_id}` route: distinct 404,
distinct 400 naming the offending status, 200 with the call, or an unhandled
`StateTransitionError` surfacing as a 500. -/
inductive CompleteResult : Type
  | notFound
  | badRequest (status : CallStatus)
  | found (call : CallState)
  | internalError (e : StateTransitionError)
deriving DecidableEq, Repr

/-- `complete_call` from `app/api/routes/calls.py`, given the row the lookup
found (or `none`): 404 when absent; already-`COMPLETED` returns the call
unchanged; a status outside `[IN_PROGRESS, PROCESSING_AI]` is a 400 naming
the status; otherwise `update_call_status` to `COMPLETED`. -/
def complete_call (now : Nat) (found : Option CallState) : CompleteResult :=
  match found with
  | none => .notFound
  | some call =>
    if call.status = CallStatus.COMPLETED then .found call
    else if ¬ (call.status ∈ [CallStatus.IN_PROGRESS, CallStatus.PROCESSING_AI]) then
      .badRequest call.status
    else
      match CallService.update_call_status now call CallStatus.COMPLETED none with
      | .ok c2 => .found c2
      | .error e => .internalError e

/-- `CallService.get_all_calls`: optional status filter, `ORDER BY updated_at
DESC`, `LIMIT limit` (the route's default for `limit` is 100).  SQL applies
the `WHERE` before ordering and limiting regardless of the order in which the
query builder received the clauses; ties in `updated_at` are returned in an
unspecified order, modelled here by a stable sort. -/
def get_all_calls (db : List CallState) (status : Option CallStatus)
    (limit : Nat) : List CallState :=
  let rows :=
    match status with
    | some s => db.filter (fun c => c.status = s)
    | none => db
  (List.insertionSort (fun a b => b.updated_at ≤ a.updated_at) rows).take limit


/-! ### Helper lemmas about the missing-sequence representation -/

theorem mem_insertSortedNoDup (a x : Nat) (l : List Nat) :
    a ∈ insertSortedNoDup x l ↔ a = x ∨ a ∈ l := by
  induction l with
  | nil => simp [insertSortedNoDup]
  | cons y ys ih =>
    simp only [insertSortedNoDup]
    by_cases h1 : x < y
    · rw [if_pos h1]; simp [List.mem_cons]
    · rw [if_neg h1]
      by_cases h2 : x = y
      · rw [if_pos h2]
        subst h2
        constructor
        · exact fun h => Or.inr h
        · rintro (h | h)
          · exact h ▸ List.mem_cons_self x ys
          · exact h
      · rw [if_neg h2]
        simp only [List.mem_cons, ih]
        tauto

theorem pairwise_insertSortedNoDup (x : Nat) (l : List Nat)
    (h : List.Pairwise (· < ·) l) :
    List.Pairwise (· < ·) (insertSortedNoDup x l) := by
  induction l with
  | nil => simp [insertSortedNoDup]
  | cons y ys ih =>
    rcases List.pairwise_cons.mp h with ⟨hy, hys⟩
    simp only [insertSortedNoDup]
    by_cases h1 : x < y
    · rw [if_pos h1]
      refine List.pairwise_cons.mpr ⟨?_, h⟩
      intro b hb
      rcases List.mem_cons.mp hb with hb | hb
      · exact hb ▸ h1
      · exact lt_trans h1 (hy b hb)
    · rw [if_neg h1]
      by_cases h2 : x = y
      · rw [if_pos h2]; exact h
      · rw [if_neg h2]
        have hyx : y < x := by omega
        refine List.pairwise_cons.mpr ⟨?_, ih hys⟩
        intro b hb
        rcases (mem_insertSortedNoDup b x ys).mp hb with hb | hb
        · exact hb ▸ hyx
        · exact hy b hb

theorem mem_sortedDedup_foldl (l : List Nat) (acc : List Nat) (a : Nat) :
    a ∈ l.foldl (fun acc x => insertSortedNoDup x acc) acc ↔ a ∈ acc ∨ a ∈ l := by
  induction l generalizing acc with
  | nil => simp
  | cons x xs ih =>
    simp only [List.foldl_cons, ih, mem_insertSortedNoDup, List.mem_cons]
    tauto

theorem pairwise_sortedDedup_foldl (l : List Nat) (acc : List Nat)
    (h : List.Pairwise (· < ·) acc) :
    List.Pairwise (· < ·) (l.foldl (fun acc x => insertSortedNoDup x acc) acc) := by
  induction l generalizing acc with
  | nil => simpa
  | cons x xs ih => exact ih _ (pairwise_insertSortedNoDup x acc h)

theorem mem_mergeMissing (cur gap : List Nat) (a : Nat) :
    a ∈ mergeMissing cur gap ↔ a ∈ cur ∨ a ∈ gap := by
  simp [mergeMissing, sortedDedup, mem_sortedDedup_foldl]

theorem pairwise_mergeMissing (cur gap : List Nat) :
    List.Pairwise (· < ·) (mergeMissing cur gap) :=
  pairwise_sortedDedup_foldl _ _ (List.Pairwise.nil)

/-! ### Claim C1 -/

/-- Spec-side rendering of the §4.2 transition table, edge by edge. -/
def specTransitionEdges : List (CallStatus × CallStatus) :=
  [(.IN_PROGRESS, .COMPLETED), (.IN_PROGRESS, .FAILED),
   (.COMPLETED, .PROCESSING_AI), (.COMPLETED, .ARCHIVED),
   (.PROCESSING_AI, .COMPLETED), (.PROCESSING_AI, .FAILED),
   (.PROCESSING_AI, .ARCHIVED), (.FAILED, .ARCHIVED)]

/-- C1: `CallStateMachine.transition(from, to)` succeeds idempotently
(returning the status) whenever `from == to`, for every one of the 5 statuses
including terminal `ARCHIVED`; for every ordered pair with `from != to` it
succeeds exactly when the edge is in the §4.2 table, and otherwise raises a
`StateTransitionError` naming both states.  Checked over all 25 ordered
pairs. -/
theorem transition_matches_spec_table (a b : CallStatus) :
    CallStateMachine.transition a b =
      (if a = b then .ok b
       else if (a, b) ∈ specTransitionEdges then .ok b
       else .error ⟨a, b⟩) := by
  cases a <;> cases b <;> decide

/-! ### Claim C2 -/

/-- C2: one `add_packet` step from any call state: if `sequence` equals the
cursor then the cursor becomes `sequence + 1`, the missing list is unchanged
and `is_in_order` is true; if `sequence` is above the cursor then every
integer in `[cursor, sequence)` joins the missing set, the cursor becomes
`sequence + 1`, and `is_in_order` is false; if `sequence` is below the cursor
then both are unchanged and `is_in_order` is false; in all three cases
`total_packets` grows by exactly 1 and the packet is stored. -/
theorem add_packet_sequence_tracking (now : Nat) (call : CallState)
    (sequence : Nat) (data : String) (timestamp : Rat) :
    (CallService.add_packet now call sequence data timestamp).1.expected_sequence
        = (if call.expected_sequence ≤ sequence then sequence + 1
           else call.expected_sequence) ∧
    ((CallService.add_packet now call sequence data timestamp).2.2 = true
        ↔ sequence = call.expected_sequence) ∧
    (∀ k, k ∈ (CallService.add_packet now call sequence data timestamp).1.missing_packets
        ↔ (k ∈ call.missing_packets ∨
            (call.expected_sequence ≤ k ∧ k < sequence))) ∧
    (¬ call.expected_sequence < sequence →
      (CallService.add_packet now call sequence data timestamp).1.missing_packets
        = call.missing_packets) ∧
    (CallService.add_packet now call sequence data timestamp).1.total_packets
        = call.total_packets + 1 ∧
    (CallService.add_packet now call sequence data timestamp).1.packets
        = call.packets ++
            [{ call_id := call.call_id, sequence := sequence, data := data,
               timestamp := timestamp, received_at := now }] := by
  by_cases hgt : call.expected_sequence < sequence
  · refine ⟨?_, ?_, ?_, ?_, ?_, ?_⟩
    · simp [CallService.add_packet, hgt, Nat.le_of_lt hgt]
    · simp [CallService.add_packet]
    · intro k
      simp only [CallService.add_packet, if_pos hgt]
      simp only [mem_mergeMissing, List.mem_range'_1]
      by_cases hk : k ∈ call.missing_packets <;> simp [hk] <;> omega
    · intro h; exact absurd hgt h
    · simp [CallService.add_packet, hgt]
    · simp [CallService.add_packet, hgt]
  · refine ⟨?_, ?_, ?_, ?_, ?_, ?_⟩
    · simp [CallService.add_packet, hgt]
    · simp [CallService.add_packet]
    · intro k
      simp only [CallService.add_packet, if_neg hgt]
      by_cases hk : k ∈ call.missing_packets <;> simp [hk] <;> omega
    · intro _
      simp [CallService.add_packet, hgt]
    · simp [CallService.add_packet, hgt]
    · simp [CallService.add_packet, hgt]

/-! ### Claim C6 -/

/-- C6: ingestion preserves the invariant
`missingSequences ⊆ [0, expectedSequence)` — sequence numbers are `Nat`
(matching the `ge=0` boundary validation), so non-negativity is by
construction and the content is the strict upper bound by the new cursor —
and keeps the boundary representation an ascending, duplicate-free list of
integers. -/
theorem add_packet_missing_invariant (now : Nat) (call : CallState)
    (sequence : Nat) (data : String) (timestamp : Rat)
    (hinv : ∀ m ∈ call.missing_packets, m < call.expected_sequence)
    (hrep : List.Pairwise (· < ·) call.missing_packets) :
    (∀ m ∈ (CallService.add_packet now call sequence data timestamp).1.missing_packets,
        m < (CallService.add_packet now call sequence data timestamp).1.expected_sequence) ∧
    List.Pairwise (· < ·)
      (CallService.add_packet now call sequence data timestamp).1.missing_packets := by
  rcases add_packet_sequence_tracking now call sequence data timestamp with
    ⟨hcur, -, hmem, hsame, -, -⟩
  constructor
  · intro m hm
    rw [hcur]
    rcases (hmem m).mp hm with h | h
    · have := hinv m h
      split <;> omega
    · split <;> omega
  · by_cases hgt : call.expected_sequence < sequence
    · have : (CallService.add_packet now call sequence data timestamp).1.missing_packets
          = mergeMissing call.missing_packets
              (List.range' call.expected_sequence (sequence - call.expected_sequence)) := by
        simp only [CallService.add_packet, if_pos hgt]
      rw [this]
      exact pairwise_mergeMissing _ _
    · rw [hsame hgt]
      exact hrep

/-- Small ingestion state used as the C6 witness input: cursor 1, one packet
seen, sequence 0 recorded missing. -/
def gapCall : CallState :=
  { id := 1, call_id := "C", status := .IN_PROGRESS, created_at := 0,
    updated_at := 0, completed_at := none, expected_sequence := 1,
    total_packets := 1, missing_packets := [0], transcription := none,
    sentiment := none, ai_processing_attempts := 0, ai_processed_at := none,
    error_message := none, packets := [] }

/-- Witness for C6 at a concrete input: `gapCall` ingesting sequence 4. -/
theorem add_packet_missing_invariant_witness :
    ((CallService.add_packet 9 gapCall 4 "d" 1).1.missing_packets.all
        (fun m =>
          decide (m < (CallService.add_packet 9 gapCall 4 "d" 1).1.expected_sequence))
      = true) ∧
    List.Pairwise (· < ·)
      (CallService.add_packet 9 gapCall 4 "d" 1).1.missing_packets := by
  have h := add_packet_missing_invariant 9 gapCall 4 "d" 1 (by decide) (by decide)
  refine ⟨?_, h.2⟩
  simp only [List.all_eq_true]
  intro m hm
  exact decide_eq_true (h.1 m hm)

/-! ### Claim C3 -/

/-- C3: with the configured policy (maxAttempts=5, initialWait=1, maxWait=60,
multiplier=2), an operation failing transiently on every attempt is attempted
exactly 5 times — never a 6th — with backoff waits `[1, 2, 4, 8]` before
attempts 2..5, and the 5th failure is surfaced; and the wait before attempt
`k` (k ≥ 2) is `min(initialWait * multiplier^(k-2), maxWait)`. -/
theorem retry_policy_spec (msgs : Nat → String) :
    (retry_with_backoff (fun k => (.error (.AIServiceError (msgs k)) :
        Except AIFailure (String × String))) =
      (.error (.AIServiceError (msgs 5)), 5, [1, 2, 4, 8])) ∧
    (∀ k, 2 ≤ k →
      wait_exponential settings.RETRY_INITIAL_WAIT settings.RETRY_MAX_WAIT 2 (k - 1)
        = min (settings.RETRY_INITIAL_WAIT * 2 ^ (k - 2)) settings.RETRY_MAX_WAIT) :=
  ⟨rfl, fun _ _ => rfl⟩

/-- Witness for C3: the theorem at the constant message function and k = 2. -/
theorem retry_policy_spec_witness :
    (retry_with_backoff (fun k => (.error
        (.AIServiceError ((fun _ => "503 Service Unavailable") k)) :
        Except AIFailure (String × String))) =
      (.error (.AIServiceError ((fun _ => "503 Service Unavailable") 5)), 5,
        [1, 2, 4, 8])) ∧
    wait_exponential settings.RETRY_INITIAL_WAIT settings.RETRY_MAX_WAIT 2 (2 - 1)
      = min (settings.RETRY_INITIAL_WAIT * 2 ^ (2 - 2)) settings.RETRY_MAX_WAIT :=
  ⟨(retry_policy_spec (fun _ => "503 Service Unavailable")).1,
   (retry_policy_spec (fun _ => "503 Service Unavailable")).2 2 (by decide)⟩

/-! ### Claim C8 -/

/-- Sample call row used by witnesses and counterexamples, parameterized by
status. -/
def sampleCall (st : CallStatus) : CallState :=
  { id := 1, call_id := "CALL-1", status := st, created_at := 0,
    updated_at := 0, completed_at := none, expected_sequence := 3,
    total_packets := 3, missing_packets := [], transcription := none,
    sentiment := none, ai_processing_attempts := 0, ai_processed_at := none,
    error_message := none,
    packets := [{ call_id := "CALL-1", sequence := 0, data := "p0",
                  timestamp := 1, received_at := 0 },
                { call_id := "CALL-1", sequence := 1, data := "p1",
                  timestamp := 2, received_at := 0 },
                { call_id := "CALL-1", sequence := 2, data := "p2",
                  timestamp := 3, received_at := 0 }] }

/-- C8: `update_call_status` is atomic on error — an illegal move returns the
`StateTransitionError` (naming both states) without producing any updated
row, because the validation raises before any field assignment, so every
field of the caller's call is left unchanged — while a same-state request is
treated as success, not an error. -/
theorem update_call_status_atomic (now : Nat) (call : CallState)
    (new_status : CallStatus) (error_message : Option String)
    (hne : call.status ≠ new_status)
    (hcan : CallStateMachine.can_transition call.status new_status = false) :
    CallService.update_call_status now call new_status error_message
        = .error ⟨call.status, new_status⟩ ∧
    ∃ c2, CallService.update_call_status now call call.status error_message
        = .ok c2 := by
  constructor
  · simp [CallService.update_call_status, CallStateMachine.transition, hne, hcan]
  · have h : CallStateMachine.transition call.status call.status = .ok call.status := by
      simp [CallStateMachine.transition]
    simp only [CallService.update_call_status, h]
    split <;> split <;> exact ⟨_, rfl⟩

/-- Witness for C8: requesting `ARCHIVED → COMPLETED` (illegal) errors, and
the same-state request on the archived call succeeds. -/
theorem update_call_status_atomic_witness :
    (CallService.update_call_status 5 (sampleCall .ARCHIVED) .COMPLETED none
        = .error ⟨(sampleCall .ARCHIVED).status, .COMPLETED⟩) ∧
    ((CallService.update_call_status 5 (sampleCall .ARCHIVED)
        (sampleCall .ARCHIVED).status none).isOk = true) := by
  have h := update_call_status_atomic 5 (sampleCall .ARCHIVED) .COMPLETED none
    (by decide) (by decide)
  refine ⟨h.1, ?_⟩
  obtain ⟨c2, h2⟩ := h.2
  rw [h2]
  rfl

/-! ### Claim C7 -/

/-- C7: the completion signal returns the distinct not-found error when the
lookup finds nothing; succeeds idempotently (returning the call unchanged, no
error) when the call is already `COMPLETED`; returns the distinct bad-request
error naming the status for any status other than `IN_PROGRESS`,
`PROCESSING_AI` or `COMPLETED`; and otherwise transitions the call to
`COMPLETED`. -/
theorem complete_call_spec (now : Nat) :
    (complete_call now none = .notFound) ∧
    (∀ c : CallState, c.status = .COMPLETED →
      complete_call now (some c) = .found c) ∧
    (∀ c : CallState, c.status = .FAILED ∨ c.status = .ARCHIVED →
      complete_call now (some c) = .badRequest c.status) ∧
    (∀ c : CallState, c.status = .IN_PROGRESS ∨ c.status = .PROCESSING_AI →
      complete_call now (some c) = .found
        { c with status := .COMPLETED, updated_at := now,
                 completed_at := some now }) := by
  refine ⟨rfl, ?_, ?_, ?_⟩
  · intro c h
    simp [complete_call, h]
  · intro c h
    rcases h with h | h <;> simp [complete_call, h]
  · intro c h
    rcases h with h | h <;>
      simp [complete_call, h, CallService.update_call_status,
        CallStateMachine.transition, CallStateMachine.can_transition,
        CallStateMachine.VALID_TRANSITIONS]

/-- Witness for C7: all four cases at concrete calls. -/
theorem complete_call_spec_witness :
    (complete_call 5 none = .notFound) ∧
    (complete_call 5 (some (sampleCall .COMPLETED))
        = .found (sampleCall .COMPLETED)) ∧
    (complete_call 5 (some (sampleCall .FAILED))
        = .badRequest (sampleCall .FAILED).status) ∧
    (complete_call 5 (some (sampleCall .IN_PROGRESS)) = .found
        { sampleCall .IN_PROGRESS with status := .COMPLETED, updated_at := 5,
                                       completed_at := some 5 }) :=
  ⟨(complete_call_spec 5).1,
   (complete_call_spec 5).2.1 _ rfl,
   (complete_call_spec 5).2.2.1 _ (Or.inl rfl),
   (complete_call_spec 5).2.2.2 _ (Or.inl rfl)⟩

/-! ### Processor helper lemmas -/

theorem claim_from_completed (now : Nat) (c : CallState)
    (h : c.status = .COMPLETED) :
    CallService.update_call_status now c .PROCESSING_AI none =
      .ok { c with status := .PROCESSING_AI, updated_at := now } := by
  simp [CallService.update_call_status, CallStateMachine.transition, h,
    CallStateMachine.can_transition, CallStateMachine.VALID_TRANSITIONS]

theorem update_to_failed_from_processing (now : Nat) (c : CallState)
    (m : String) (hst : c.status = .PROCESSING_AI) (hm : m ≠ "") :
    CallService.update_call_status now c .FAILED (some m) =
      .ok { c with status := .FAILED, updated_at := now,
                   error_message := some m } := by
  simp [CallService.update_call_status, CallStateMachine.transition, hst,
    CallStateMachine.can_transition, CallStateMachine.VALID_TRANSITIONS, hm]

theorem string_append_ne_empty (p s : String) (hp : p.length ≠ 0) :
    p ++ s ≠ "" := by
  intro h
  have hl := congrArg String.length h
  rw [String.length_append] at hl
  simp only [String.length_empty] at hl
  omega

/-! ### Claim C4 -/

/-- C4 (amended): when enrichment of a claimed call fails transiently on
every one of the 5 allowed attempts, the processor leaves the call `FAILED`
with a non-empty `error_message` capturing the failure, and increments
`ai_processing_attempts` by exactly one — not by the number of attempts
consumed. -/
theorem persistent_failure_marks_failed (now : Nat) (msgs : Nat → String)
    (call : CallState) (h : call.status = .COMPLETED) :
    ((CallProcessor._process_single_call now
        (fun _ k => .error (.AIServiceError (msgs k))) call).status
      = .FAILED) ∧
    (∃ m, (CallProcessor._process_single_call now
        (fun _ k => .error (.AIServiceError (msgs k))) call).error_message
      = some m ∧ m ≠ "") ∧
    ((CallProcessor._process_single_call now
        (fun _ k => .error (.AIServiceError (msgs k))) call).ai_processing_attempts
      = call.ai_processing_attempts + 1) := by
  have hclaim := claim_from_completed now call h
  have hretry : retry_with_backoff
      (fun k => (.error (.AIServiceError (msgs k)) :
        Except AIFailure (String × String))) =
      (.error (.AIServiceError (msgs 5)), 5, [1, 2, 4, 8]) := rfl
  have hm : ("AI service failed after retries: " ++ msgs 5) ≠ "" :=
    string_append_ne_empty _ _ (by decide)
  have hfail := update_to_failed_from_processing now
    { call with status := .PROCESSING_AI, updated_at := now,
                ai_processing_attempts := call.ai_processing_attempts + 1 }
    ("AI service failed after retries: " ++ msgs 5) rfl hm
  simp only [CallProcessor._process_single_call, hclaim, hretry]
  refine ⟨?_, ⟨_, ?_, hm⟩, ?_⟩ <;> simp [hfail]

/-- Witness for C4 at a concrete completed call and constant failure. -/
theorem persistent_failure_marks_failed_witness :
    ((CallProcessor._process_single_call 7
        (fun _ k => .error (.AIServiceError ((fun _ => "503") k)))
        (sampleCall .COMPLETED)).status = .FAILED) ∧
    ((CallProcessor._process_single_call 7
        (fun _ k => .error (.AIServiceError ((fun _ => "503") k)))
        (sampleCall .COMPLETED)).error_message.getD "" ≠ "") ∧
    ((CallProcessor._process_single_call 7
        (fun _ k => .error (.AIServiceError ((fun _ => "503") k)))
        (sampleCall .COMPLETED)).ai_processing_attempts
      = (sampleCall .COMPLETED).ai_processing_attempts + 1) := by
  have h := persistent_failure_marks_failed 7 (fun _ => "503")
    (sampleCall .COMPLETED) rfl
  refine ⟨h.1, ?_, h.2.2⟩
  obtain ⟨m, hm, hne⟩ := h.2.1
  rw [hm]
  simpa using hne

/-- Counterexample for C4 as stated: after a persistent transient failure of
all 5 attempts on a freshly completed call, `ai_processing_attempts` is 1,
not `maxAttempts = 5` — the code increments the counter once per processing
episode, not once per attempt. -/
theorem enrichment_attempts_not_max :
    ((CallProcessor._process_single_call 7
        (fun _ _ => .error (.AIServiceError "503 Service Unavailable"))
        (sampleCall .COMPLETED)).ai_processing_attempts = 1) ∧
    ((CallProcessor._process_single_call 7
        (fun _ _ => .error (.AIServiceError "503 Service Unavailable"))
        (sampleCall .COMPLETED)).ai_processing_attempts
      ≠ settings.MAX_RETRY_ATTEMPTS) := by
  constructor
  · rfl
  · decide

/-! ### Claim C5 -/

/-- C5 (amended): a call whose claim fails (it was concurrently moved to the
terminal `ARCHIVED` status) is skipped for the cycle — the enrichment
collaborator is never consulted and the loop continues with the other calls,
handling this call exactly once in the pass — and its status and all
enrichment fields are left unchanged, but `ai_processing_attempts` is
incremented by one and `updated_at` is refreshed: the generic error handler
bumps the counter and commits (the ORM's `onupdate` rewriting `updated_at`
on that commit) before its best-effort `FAILED` transition fails. -/
theorem claim_failure_skips_call (now : Nat)
    (ai : String → Nat → Except AIFailure (String × String))
    (call : CallState) (h : call.status = .ARCHIVED) :
    (CallProcessor._process_single_call now ai call
      = { call with ai_processing_attempts := call.ai_processing_attempts + 1,
                    updated_at := now }) ∧
    (∀ before after : List CallState,
      CallProcessor._process_pending_calls now ai (before ++ call :: after)
        = CallProcessor._process_pending_calls now ai before
          ++ ({ call with
                ai_processing_attempts := call.ai_processing_attempts + 1,
                updated_at := now }
              :: CallProcessor._process_pending_calls now ai after)) := by
  have hclaim : CallService.update_call_status now call .PROCESSING_AI none
      = .error ⟨call.status, .PROCESSING_AI⟩ := by
    simp [CallService.update_call_status, CallStateMachine.transition, h,
      CallStateMachine.can_transition, CallStateMachine.VALID_TRANSITIONS]
  have hfail : CallService.update_call_status now
      { call with ai_processing_attempts := call.ai_processing_attempts + 1,
                  updated_at := now }
      .FAILED (some "Unexpected error: Invalid state transition")
      = .error ⟨call.status, .FAILED⟩ := by
    simp [CallService.update_call_status, CallStateMachine.transition, h,
      CallStateMachine.can_transition, CallStateMachine.VALID_TRANSITIONS]
  have hsingle : CallProcessor._process_single_call now ai call
      = { call with ai_processing_attempts := call.ai_processing_attempts + 1,
                    updated_at := now } := by
    simp only [CallProcessor._process_single_call, hclaim, hfail]
  refine ⟨hsingle, ?_⟩
  intro before after
  simp [CallProcessor._process_pending_calls, hsingle]

/-- Witness for C5 at a concrete archived call. -/
theorem claim_failure_skips_call_witness :
    (CallProcessor._process_single_call 7
        (fun _ _ => .error (.AIServiceError "503")) (sampleCall .ARCHIVED)
      = { sampleCall .ARCHIVED with
          ai_processing_attempts :=
            (sampleCall .ARCHIVED).ai_processing_attempts + 1,
          updated_at := 7 }) ∧
    (CallProcessor._process_pending_calls 7
          (fun _ _ => .error (.AIServiceError "503"))
          ([sampleCall .FAILED] ++ sampleCall .ARCHIVED :: [sampleCall .ARCHIVED])
        = CallProcessor._process_pending_calls 7
            (fun _ _ => .error (.AIServiceError "503")) [sampleCall .FAILED]
          ++ ({ sampleCall .ARCHIVED with
                ai_processing_attempts :=
                  (sampleCall .ARCHIVED).ai_processing_attempts + 1,
                updated_at := 7 }
              :: CallProcessor._process_pending_calls 7
                  (fun _ _ => .error (.AIServiceError "503"))
                  [sampleCall .ARCHIVED])) :=
  ⟨(claim_failure_skips_call 7 (fun _ _ => .error (.AIServiceError "503"))
      (sampleCall .ARCHIVED) rfl).1,
   (claim_failure_skips_call 7 (fun _ _ => .error (.AIServiceError "503"))
      (sampleCall .ARCHIVED) rfl).2 [sampleCall .FAILED] [sampleCall .ARCHIVED]⟩

/-- Counterexample for C5 as stated: a call whose claim fails is not left
entirely unchanged — `ai_processing_attempts` moves from 0 to 1, and the
attempts-increment commit also refreshes `updated_at` (0 to 7) through the
column's `onupdate` hook. -/
theorem claim_failure_changes_state :
    (CallProcessor._process_single_call 7
        (fun _ _ => .error (.AIServiceError "503")) (sampleCall .ARCHIVED)
      ≠ sampleCall .ARCHIVED) ∧
    ((CallProcessor._process_single_call 7
        (fun _ _ => .error (.AIServiceError "503"))
        (sampleCall .ARCHIVED)).ai_processing_attempts = 1) ∧
    ((sampleCall .ARCHIVED).ai_processing_attempts = 0) ∧
    ((CallProcessor._process_single_call 7
        (fun _ _ => .error (.AIServiceError "503"))
        (sampleCall .ARCHIVED)).updated_at = 7) ∧
    ((sampleCall .ARCHIVED).updated_at = 0) := by
  refine ⟨?_, rfl, rfl, rfl, rfl⟩
  decide

/-! ### Claim C9 -/

theorem filter_orderedInsert_seq (p : CallPacket) (l : List CallPacket)
    (k : Nat) :
    (List.orderedInsert (fun a b => a.sequence ≤ b.sequence) p l).filter
        (fun q => q.sequence == k)
      = (if p.sequence = k
         then p :: l.filter (fun q => q.sequence == k)
         else l.filter (fun q => q.sequence == k)) := by
  induction l with
  | nil =>
    by_cases h : p.sequence = k <;> simp [List.orderedInsert, h]
  | cons b bs ih =>
    simp only [List.orderedInsert]
    by_cases hle : p.sequence ≤ b.sequence
    · rw [if_pos hle]
      by_cases h : p.sequence = k <;> simp [List.filter_cons, h]
    · rw [if_neg hle]
      by_cases h : p.sequence = k
      · have hb : ¬ b.sequence = k := by omega
        simp [List.filter_cons, h, hb, ih]
      · by_cases hb : b.sequence = k <;> simp [List.filter_cons, h, hb, ih]

theorem filter_sortBySequence (l : List CallPacket) (k : Nat) :
    (sortBySequence l).filter (fun q => q.sequence == k)
      = l.filter (fun q => q.sequence == k) := by
  induction l with
  | nil => rfl
  | cons p ps ih =>
    simp only [sortBySequence, List.insertionSort] at ih ⊢
    rw [filter_orderedInsert_seq, ih]
    by_cases h : p.sequence = k <;> simp [List.filter_cons, h]

/-- C9: the payload sent to enrichment is built by sorting all of the call's
stored packets by sequence ascending — every stored packet included,
duplicates not removed (the sorted list is a permutation of the stored one),
ties kept in stable order (per-key filters are preserved) — and joining the
payload strings in that order into one combined string. -/
theorem combine_packet_data_spec (packets : List CallPacket) :
    (CallProcessor._combine_packet_data packets
      = String.intercalate " " ((sortBySequence packets).map CallPacket.data)) ∧
    (sortBySequence packets).Perm packets ∧
    List.Pairwise (fun p q => p.sequence ≤ q.sequence) (sortBySequence packets) ∧
    (∀ k, (sortBySequence packets).filter (fun q => q.sequence == k)
      = packets.filter (fun q => q.sequence == k)) := by
  refine ⟨?_, ?_, ?_, filter_sortBySequence packets⟩
  · rcases packets with _ | ⟨p, ps⟩
    · rfl
    · simp [CallProcessor._combine_packet_data]
  · exact List.perm_insertionSort _ packets
  · haveI : IsTotal CallPacket (fun p q => p.sequence ≤ q.sequence) :=
      ⟨fun a b => Nat.le_total a.sequence b.sequence⟩
    haveI : IsTrans CallPacket (fun p q => p.sequence ≤ q.sequence) :=
      ⟨fun _ _ _ hab hbc => Nat.le_trans hab hbc⟩
    exact List.sorted_insertionSort _ packets

/-! ### Claim C10 -/

/-- Example table with one call in each of the 5 statuses. -/
def exampleDb : List CallState :=
  [sampleCall .IN_PROGRESS, sampleCall .COMPLETED, sampleCall .PROCESSING_AI,
   sampleCall .FAILED, sampleCall .ARCHIVED]

theorem sorted_take_facts (rows : List CallState) (limit : Nat) :
    (((List.insertionSort (fun a b => b.updated_at ≤ a.updated_at) rows).take
        limit).length ≤ limit) ∧
    List.Pairwise (fun a b => b.updated_at ≤ a.updated_at)
      ((List.insertionSort (fun a b => b.updated_at ≤ a.updated_at) rows).take
        limit) ∧
    (∀ c ∈ (List.insertionSort (fun a b => b.updated_at ≤ a.updated_at)
        rows).take limit, c ∈ rows) := by
  refine ⟨List.length_take_le _ _, ?_, ?_⟩
  · haveI : IsTotal CallState (fun a b => b.updated_at ≤ a.updated_at) :=
      ⟨fun a b => Nat.le_total b.updated_at a.updated_at⟩
    haveI : IsTrans CallState (fun a b => b.updated_at ≤ a.updated_at) :=
      ⟨fun _ _ _ hab hbc => Nat.le_trans hbc hab⟩
    exact List.Pairwise.sublist (List.take_sublist _ _)
      (List.sorted_insertionSort _ rows)
  · intro c hc
    exact (List.perm_insertionSort _ rows).mem_iff.mp (List.mem_of_mem_take hc)

/-- C10: the history query returns at most `limit` calls (100 at the route's
default), ordered most-recently-updated first, drawn from the table; with a
status filter every returned call has exactly that status; with no filter
every status can appear (shown on a 5-status example table). -/
theorem get_all_calls_spec (db : List CallState) (status : Option CallStatus)
    (limit : Nat) :
    ((get_all_calls db status limit).length ≤ limit) ∧
    List.Pairwise (fun a b => b.updated_at ≤ a.updated_at)
      (get_all_calls db status limit) ∧
    (∀ s, status = some s → ∀ c ∈ get_all_calls db status limit,
      c.status = s) ∧
    (∀ c ∈ get_all_calls db status limit, c ∈ db) ∧
    (∀ s : CallStatus, ∃ c ∈ get_all_calls exampleDb none 100,
      c.status = s) := by
  rcases status with _ | s
  · rcases sorted_take_facts db limit with ⟨h1, h2, h3⟩
    refine ⟨h1, h2, ?_, ?_, by decide⟩
    · intro s hs
      exact absurd hs (by simp)
    · intro c hc
      exact h3 c hc
  · rcases sorted_take_facts (db.filter (fun c => c.status = s)) limit with
      ⟨h1, h2, h3⟩
    refine ⟨h1, h2, ?_, ?_, by decide⟩
    · intro s2 hs2 c hc
      have hmem := h3 c hc
      have := List.of_mem_filter hmem
      have hcs : c.status = s := of_decide_eq_true this
      cases hs2
      exact hcs
    · intro c hc
      exact List.mem_of_mem_filter (h3 c hc)

/-- Witness for C10: filtering the example table by `COMPLETED` with limit 2
returns at most 2 rows, all `COMPLETED`. -/
theorem get_all_calls_spec_witness :
    ((get_all_calls exampleDb (some .COMPLETED) 2).length ≤ 2) ∧
    ((get_all_calls exampleDb (some .COMPLETED) 2).all
      (fun c => c.status == .COMPLETED) = true) := by
  have h := get_all_calls_spec exampleDb (some .COMPLETED) 2
  refine ⟨h.1, ?_⟩
  simp only [List.all_eq_true]
  intro c hc
  have := h.2.2.1 .COMPLETED rfl c hc
  rw [this]
  rfl

/-- Witness for C2 at a concrete input: `sampleCall` (cursor 3) ingesting
sequence 7 advances the cursor to 8, counts the packet, and records 5 as
missing. -/
theorem add_packet_sequence_tracking_witness :
    ((CallService.add_packet 9 (sampleCall .IN_PROGRESS) 7 "d" 1).1.expected_sequence
      = 8) ∧
    ((CallService.add_packet 9 (sampleCall .IN_PROGRESS) 7 "d" 1).1.total_packets
      = (sampleCall .IN_PROGRESS).total_packets + 1) ∧
    (5 ∈ (CallService.add_packet 9 (sampleCall .IN_PROGRESS) 7 "d" 1).1.missing_packets) := by
  have h := add_packet_sequence_tracking 9 (sampleCall .IN_PROGRESS) 7 "d" 1
  refine ⟨?_, h.2.2.2.2.1, ?_⟩
  · simpa using h.1
  · exact (h.2.2.1 5).mpr (Or.inr (by decide))
